import Mathlib

/-!
Verification of the CRE 10-year return model (src/app.py).

The financial engine is embedded shallowly over exact rationals:
- amortization_schedule mirrors the loop of app.py lines 15-35;
- pmt models the third-party npf.pmt call by the documented annuity
  formula (the spec states the same formula, rate = 0 handled as a
  degenerate case);
- the yearly projection loop (lines 79-90) and the return section
  (lines 96-106) are embedded as projectAux, build_cashflows,
  equity_multiple and the orchestration runModel;
- npf.irr is third-party code that is not in the repository; the
  wrapper irr (lines 9-13) swallows every failure into an absent
  value, so runModel is parametric in an abstract irrFun of type
  List Rat -> Option Rat.
-/

/-- One row of the amortization schedule, as appended at app.py lines 28-33. -/
structure PeriodRecord where
  payment : ℚ
  interest : ℚ
  principal : ℚ
  balance : ℚ
  deriving Repr, DecidableEq

/-- Modelled from the spec: the third-party call npf.pmt(r, n, -loan)
(app.py line 19) is not repository code; the spec gives the standard
annuity-payment formula, payment = loan * r / (1 - (1+r)^(-n)) for
r > 0 and payment = loan / n in the degenerate case r = 0.  The r > 0
branch is written with positive powers; pmt_eq_annuity_formula below
shows it equals the inverse-power form of the spec. -/
def pmt (r : ℚ) (n : ℕ) (loan : ℚ) : ℚ :=
  if r = 0 then loan / n else loan * (r * (1 + r) ^ n) / ((1 + r) ^ n - 1)

/-- The loop body of app.py lines 24-33: each period computes
interest = balance * r, principal = payment - interest, subtracts the
principal from the running balance, and records the balance floored at 0. -/
def amortAux (r pay : ℚ) : ℚ → ℕ → List PeriodRecord
  | _, 0 => []
  | bal, t + 1 =>
      let interest := bal * r
      let principal := pay - interest
      let bal2 := bal - principal
      ⟨pay, interest, principal, max bal2 0⟩ :: amortAux r pay bal2 t

/-- app.py lines 15-35: amortization_schedule(loan_amount, rate,
amort_years, term_years).  No input validation is performed by the
source. -/
def amortization_schedule (loan_amount rate : ℚ) (amort_years term_years : ℕ) :
    List PeriodRecord :=
  amortAux rate (pmt rate amort_years loan_amount) loan_amount term_years

/-- The running (un-floored) balance variable of the loop at app.py
lines 22-27, after k iterations. -/
def rawBal (r pay bal : ℚ) : ℕ → ℚ
  | 0 => bal
  | k + 1 => rawBal r pay bal k - (pay - rawBal r pay bal k * r)

lemma rawBal_succ (r pay bal : ℚ) (k : ℕ) :
    rawBal r pay bal (k + 1) = rawBal r pay bal k * (1 + r) - pay := by
  rw [rawBal]; ring

lemma rawBal_shift (r pay bal : ℚ) (k : ℕ) :
    rawBal r pay (rawBal r pay bal 1) k = rawBal r pay bal (k + 1) := by
  induction k with
  | zero => rfl
  | succ k ih =>
      simp only [rawBal] at ih ⊢
      rw [ih]

lemma amortAux_length (r pay bal : ℚ) (t : ℕ) :
    (amortAux r pay bal t).length = t := by
  induction t generalizing bal with
  | zero => rfl
  | succ t ih => simp [amortAux, ih]

lemma amortAux_get? (r pay : ℚ) (t : ℕ) :
    ∀ (bal : ℚ) (i : ℕ), i < t →
      (amortAux r pay bal t).get? i =
        some ⟨pay, rawBal r pay bal i * r, pay - rawBal r pay bal i * r,
              max (rawBal r pay bal (i + 1)) 0⟩ := by
  induction t with
  | zero => intro bal i h; omega
  | succ t ih =>
      intro bal i h
      match i with
      | 0 => simp [amortAux, rawBal]
      | i + 1 =>
          have h2 : i < t := by omega
          simp only [amortAux, List.get?_cons_succ]
          rw [ih (bal - (pay - bal * r)) i h2]
          have hb : bal - (pay - bal * r) = rawBal r pay bal 1 := by
            rw [rawBal, rawBal]
          rw [hb, rawBal_shift, rawBal_shift]

lemma rawBal_closed (r pay bal : ℚ) (hr : r ≠ 0) (k : ℕ) :
    rawBal r pay bal k = bal * (1 + r) ^ k - pay * ((1 + r) ^ k - 1) / r := by
  induction k with
  | zero => simp [rawBal]
  | succ k ih =>
      rw [rawBal_succ, ih]
      field_simp
      ring

/-- The payment of the annuity formula drives the running balance to
exactly 0 after the full amortization term, in exact arithmetic. -/
lemma rawBal_pmt_amortizes (r P : ℚ) (n : ℕ) (hr : 0 < r) (hn : 0 < n) :
    rawBal r (pmt r n P) P n = 0 := by
  have hA : (1 : ℚ) < (1 + r) ^ n := one_lt_pow₀ (by linarith) (by omega)
  have hA1 : (1 + r) ^ n - 1 ≠ 0 := by linarith
  rw [rawBal_closed r _ P (ne_of_gt hr) n, pmt, if_neg (ne_of_gt hr)]
  field_simp
  ring

lemma pmt_ge_loan_mul_rate (r P : ℚ) (n : ℕ) (hP : 0 ≤ P) (hr : 0 ≤ r)
    (hn : 0 < n) : P * r ≤ pmt r n P := by
  rcases eq_or_lt_of_le hr with h0 | hpos
  · rw [pmt, if_pos h0.symm, ← h0]
    have : (0 : ℚ) ≤ P / n := div_nonneg hP (by positivity)
    linarith
  · rw [pmt, if_neg (ne_of_gt hpos)]
    have hA : (1 : ℚ) < (1 + r) ^ n := one_lt_pow₀ (by linarith) (by omega)
    rw [le_div_iff₀ (by linarith)]
    nlinarith [mul_nonneg hP hpos.le]

lemma pmt_nonneg (r P : ℚ) (n : ℕ) (hP : 0 ≤ P) (hr : 0 ≤ r) (hn : 0 < n) :
    0 ≤ pmt r n P := by
  have h1 := pmt_ge_loan_mul_rate r P n hP hr hn
  have h2 : 0 ≤ P * r := mul_nonneg hP hr
  linarith

/-- With a nonnegative rate and an opening balance whose per-period
interest does not exceed the payment, the running balance is
non-increasing and stays at or below its opening value. -/
lemma rawBal_antitone (r pay bal : ℚ) (hr : 0 ≤ r) (hbp : bal * r ≤ pay) :
    ∀ k, rawBal r pay bal (k + 1) ≤ rawBal r pay bal k ∧
         rawBal r pay bal k ≤ bal := by
  intro k
  induction k with
  | zero =>
      constructor
      · show rawBal r pay bal 0 - (pay - rawBal r pay bal 0 * r) ≤ _
        show bal - (pay - bal * r) ≤ rawBal r pay bal 0
        show bal - (pay - bal * r) ≤ bal
        linarith
      · exact le_refl bal
  | succ k ih =>
      have hk1 : rawBal r pay bal (k + 1) ≤ bal := le_trans ih.1 ih.2
      have hint : rawBal r pay bal (k + 1) * r ≤ pay :=
        le_trans (mul_le_mul_of_nonneg_right hk1 hr) hbp
      constructor
      · show rawBal r pay bal (k + 1) - (pay - rawBal r pay bal (k + 1) * r) ≤ _
        linarith
      · exact hk1

/-- The yearly loop of app.py lines 79-90: for each year, debt service
is that year's scheduled payment; from year 2 on the running NOI is
multiplied by (1 + rent_growth) before use; the row collects
(noi, cashflow, dscr) with cashflow = noi - debt_service and
dscr = noi / debt_service (no guard on a zero debt service). -/
def projectAux (g : ℚ) : ℚ → List PeriodRecord → List (ℚ × ℚ × ℚ)
  | _, [] => []
  | noi, s :: rest =>
      let ds := s.payment
      let cf := noi - ds
      (noi, cf, noi / ds) :: projectAux g (noi * (1 + g)) rest

/-- The noi_list accumulated at app.py line 88. -/
def noi_list (noi1 g : ℚ) (sched : List PeriodRecord) : List ℚ :=
  (projectAux g noi1 sched).map (fun row => row.1)

/-- The cf_list accumulated at app.py line 89. -/
def cf_list (noi1 g : ℚ) (sched : List PeriodRecord) : List ℚ :=
  (projectAux g noi1 sched).map (fun row => row.2.1)

/-- The dscr_list accumulated at app.py line 90. -/
def dscr_list (noi1 g : ℚ) (sched : List PeriodRecord) : List ℚ :=
  (projectAux g noi1 sched).map (fun row => row.2.2)

/-- app.py line 104: cashflows = [-equity] + cf_list[:-1]
+ [cf_list[-1] + net_sales_proceeds]. -/
def build_cashflows (equity : ℚ) (cf : List ℚ) (nsp : ℚ) : List ℚ :=
  -equity :: (cf.dropLast ++ [cf.getLastD 0 + nsp])

/-- app.py line 106: equity_multiple = sum(cashflows[1:]) / (-cashflows[0]). -/
def equity_multiple (cashflows : List ℚ) : ℚ :=
  (cashflows.drop 1).sum / (-(cashflows.headD 0))

/-- The error taxonomy of the spec (section 7). -/
inductive SpecError where
  | invalidInput
  | undefinedResult
  | divisionUndefined
  deriving Repr, DecidableEq

/-- Modelled from the spec: build_schedule validates its inputs and
fails with InvalidInput when principal < 0, rate < 0,
amortization_periods <= 0, or horizon_periods <= 0; otherwise it
returns the schedule the source computes.  The source (app.py lines
15-35) performs no such validation; this definition exists only to be
compared with it. -/
def build_schedule_spec (principal rate : ℚ) (amortization_periods horizon_periods : ℕ) :
    Except SpecError (List PeriodRecord) :=
  if principal < 0 ∨ rate < 0 ∨ amortization_periods = 0 ∨ horizon_periods = 0 then
    .error .invalidInput
  else
    .ok (amortization_schedule principal rate amortization_periods horizon_periods)

/-- Modelled from the spec: CashFlowProjector.project fails with
DivisionUndefined when a debt service of 0 is met instead of silently
producing a DSCR value.  The source (app.py line 90) divides
unconditionally; this definition exists only to be compared with it. -/
def project_spec (g : ℚ) : ℚ → List PeriodRecord → Except SpecError (List (ℚ × ℚ × ℚ))
  | _, [] => .ok []
  | noi, s :: rest =>
      if s.payment = 0 then .error .divisionUndefined
      else
        match project_spec g (noi * (1 + g)) rest with
        | .error e => .error e
        | .ok tail => .ok ((noi, noi - s.payment, noi / s.payment) :: tail)

/-- Modelled from the spec: ReturnCalculator.summarize fails with
InvalidInput when exit_cap_rate <= 0 or equity <= 0; otherwise it
returns (exit_value, net_sale_proceeds, equity cash-flow vector).
The source (app.py lines 96-106) performs no such validation; this
definition exists only to be compared with it. -/
def summarize_spec (equity : ℚ) (cf : List ℚ) (final_noi exit_cap_rate remaining_balance : ℚ) :
    Except SpecError (ℚ × ℚ × List ℚ) :=
  if exit_cap_rate ≤ 0 ∨ equity ≤ 0 then .error .invalidInput
  else
    let ev := final_noi / exit_cap_rate
    let nsp := ev - remaining_balance
    .ok (ev, nsp, build_cashflows equity cf nsp)

/-- The spec phrasing of the equity multiple in ReturnSummary (spec
section 3): sum of all positive inflows divided by the initial equity
outflow.  To be compared with equity_multiple, which the source
computes from the sum of all entries at index >= 1. -/
def positive_inflows_multiple (cashflows : List ℚ) : ℚ :=
  (((cashflows.drop 1).filter (fun x => 0 < x)).sum) / (-(cashflows.headD 0))

/-- The outputs of the script, app.py lines 60-106. -/
structure ModelOutput where
  loan_amount : ℚ
  equity : ℚ
  schedule : List PeriodRecord
  noi_list : List ℚ
  cf_list : List ℚ
  dscr_list : List ℚ
  exit_value : ℚ
  remaining_balance : ℚ
  net_sales_proceeds : ℚ
  cashflows : List ℚ
  irr_val : Option ℚ
  equity_multiple : ℚ

/-- The straight-line orchestration of app.py lines 47-106, from the
sidebar inputs to the return summary.  irrFun abstracts the irr
wrapper of lines 9-13 (npf.irr is third-party code not in the
repository; the wrapper turns every failure into an absent value, so
its type is List Rat -> Option Rat).  expense_growth is read at line
50 and never used afterwards; loan_term is fixed to 10 at line 58.
Python's negative indexing at lines 96-97 and 104 is rendered with
getLastD/getLast? (the lists are never empty: the schedule always has
loan_term = 10 rows). -/
def runModel (irrFun : List ℚ → Option ℚ)
    (purchase_price noi_year_1 rent_growth expense_growth exit_cap ltv interest_rate : ℚ)
    (amort_years : ℕ) : ModelOutput :=
  let loan_term : ℕ := 10
  let loan_amount := purchase_price * ltv
  let equity := purchase_price - loan_amount
  let schedule := amortization_schedule loan_amount interest_rate amort_years loan_term
  let nl := noi_list noi_year_1 rent_growth schedule
  let cl := cf_list noi_year_1 rent_growth schedule
  let dl := dscr_list noi_year_1 rent_growth schedule
  let ev := nl.getLastD 0 / exit_cap
  let rb := (schedule.getLast?.map (fun s => s.balance)).getD 0
  let nsp := ev - rb
  let cashflows := build_cashflows equity cl nsp
  let irr_val := irrFun cashflows
  let em := equity_multiple cashflows
  ⟨loan_amount, equity, schedule, nl, cl, dl, ev, rb, nsp, cashflows, irr_val, em⟩

lemma projectAux_length (g noi : ℚ) (sched : List PeriodRecord) :
    (projectAux g noi sched).length = sched.length := by
  induction sched generalizing noi with
  | nil => rfl
  | cons s rest ih => simp [projectAux, ih]

lemma projectAux_get? (g : ℚ) (sched : List PeriodRecord) :
    ∀ (noi : ℚ) (i : ℕ) (si : PeriodRecord), sched.get? i = some si →
      (projectAux g noi sched).get? i =
        some (noi * (1 + g) ^ i, noi * (1 + g) ^ i - si.payment,
              noi * (1 + g) ^ i / si.payment) := by
  induction sched with
  | nil => intro noi i si h; simp at h
  | cons s rest ih =>
      intro noi i si h
      match i with
      | 0 =>
          simp only [List.get?_cons_zero, Option.some_inj] at h
          subst h
          simp [projectAux]
      | i + 1 =>
          simp only [List.get?_cons_succ] at h
          simp only [projectAux, List.get?_cons_succ]
          rw [ih (noi * (1 + g)) i si h]
          have hp : noi * (1 + g) * (1 + g) ^ i = noi * (1 + g) ^ (i + 1) := by
            rw [pow_succ]; ring
          rw [hp]

lemma pmt_eq_annuity_formula (r P : ℚ) (n : ℕ) (hr : 0 < r) (hn : 0 < n) :
    pmt r n P = P * r / (1 - (1 + r) ^ (-(n : ℤ))) := by
  have hA : (1 : ℚ) < (1 + r) ^ n := one_lt_pow₀ (by linarith) (by omega)
  have hA0 : ((1 : ℚ) + r) ^ n ≠ 0 := by positivity
  have hA1 : (1 + r) ^ n - 1 ≠ 0 := by linarith
  rw [pmt, if_neg (ne_of_gt hr), zpow_neg, zpow_natCast]
  rw [eq_div_iff]
  · field_simp
    ring
  · intro hcon
    have : ((1 : ℚ) + r) ^ n * (1 - ((1 + r) ^ n)⁻¹) = 0 := by
      rw [hcon, mul_zero]
    rw [mul_sub, mul_inv_cancel₀ hA0, mul_one] at this
    exact hA1 (by linarith)

/-- C1: for principal >= 0, rate > 0 and amortization_periods > 0, the
payment equals the annuity formula principal * rate /
(1 - (1+rate)^(-amortization_periods)), and running the period
iteration for exactly amortization_periods periods ends with a
recorded balance of exactly 0 in exact rational arithmetic. -/
theorem payment_fully_amortizes (P r : ℚ) (n : ℕ)
    (hP : 0 ≤ P) (hr : 0 < r) (hn : 0 < n) :
    pmt r n P = P * r / (1 - (1 + r) ^ (-(n : ℤ))) ∧
    ∃ a : PeriodRecord,
      (amortization_schedule P r n n).get? (n - 1) = some a ∧ a.balance = 0 := by
  refine ⟨pmt_eq_annuity_formula r P n hr hn, ?_⟩
  have hlt : n - 1 < n := by omega
  refine ⟨_, amortAux_get? r (pmt r n P) n P (n - 1) hlt, ?_⟩
  show max (rawBal r (pmt r n P) P (n - 1 + 1)) 0 = 0
  have he : n - 1 + 1 = n := by omega
  rw [he, rawBal_pmt_amortizes r P n hr hn]
  exact max_self 0

/-- Witness for C1 at principal 100, rate 1, one period. -/
theorem payment_fully_amortizes_witness :
    pmt 1 1 100 = 100 * 1 / (1 - (1 + 1) ^ (-(1 : ℤ))) ∧
    ∃ a : PeriodRecord,
      (amortization_schedule 100 1 1 1).get? 0 = some a ∧ a.balance = 0 :=
  payment_fully_amortizes 100 1 1 (by norm_num) (by norm_num) (by norm_num)

/-- C2 counterexample: with principal 100, rate 1, amortization 1
period and horizon 2 periods, the recorded (floored) balances are 0
after period 1 and 0 after period 2, but the claimed un-floored
recurrence balance[2] = balance[1] - (payment - balance[1] * rate)
would give 0 - (200 - 0 * 1) = -200, not the recorded 0. -/
theorem balance_recurrence_fails_at_floor :
    (amortization_schedule 100 1 1 2).get? 0 = some ⟨200, 100, 100, 0⟩ ∧
    (amortization_schedule 100 1 1 2).get? 1 = some ⟨200, 0, 200, 0⟩ ∧
    ¬((0 : ℚ) = 0 - (200 - 0 * 1)) := by
  refine ⟨?_, ?_, by norm_num⟩ <;>
    norm_num [amortization_schedule, amortAux, pmt]

/-- C2 (amended): for principal >= 0, rate >= 0 and
amortization_periods > 0, the recorded balances of every schedule
satisfy the floored recurrence balance[i] = max(balance[i-1] -
(payment - balance[i-1] * rate), 0); the recorded balance sequence is
non-increasing and every recorded balance is >= 0.  The un-floored
recurrence of the claim holds only while the floor is inactive and
fails once the horizon passes full amortization. -/
theorem schedule_balance_props (P r : ℚ) (n t : ℕ)
    (hP : 0 ≤ P) (hr : 0 ≤ r) (hn : 0 < n) :
    (∀ i a, (amortization_schedule P r n t).get? i = some a → 0 ≤ a.balance) ∧
    (∀ i a b, (amortization_schedule P r n t).get? i = some a →
        (amortization_schedule P r n t).get? (i + 1) = some b →
        b.balance = max (a.balance - (a.payment - a.balance * r)) 0 ∧
        b.balance ≤ a.balance) := by
  have hpay : 0 ≤ pmt r n P := pmt_nonneg r P n hP hr hn
  have hbp : P * r ≤ pmt r n P := pmt_ge_loan_mul_rate r P n hP hr hn
  constructor
  · intro i a ha
    have hi : i < t := by
      have := (List.get?_eq_some.mp ha).1
      rwa [amortization_schedule, amortAux_length] at this
    rw [amortization_schedule, amortAux_get? r (pmt r n P) t P i hi] at ha
    have : a = ⟨pmt r n P, rawBal r (pmt r n P) P i * r,
        pmt r n P - rawBal r (pmt r n P) P i * r,
        max (rawBal r (pmt r n P) P (i + 1)) 0⟩ := by
      exact (Option.some_inj.mp ha).symm
    rw [this]
    exact le_max_right _ _
  · intro i a b ha hb
    have hi1 : i + 1 < t := by
      have := (List.get?_eq_some.mp hb).1
      rwa [amortization_schedule, amortAux_length] at this
    have hi : i < t := by omega
    rw [amortization_schedule, amortAux_get? r (pmt r n P) t P i hi] at ha
    rw [amortization_schedule, amortAux_get? r (pmt r n P) t P (i + 1) hi1] at hb
    have hae : a = ⟨pmt r n P, rawBal r (pmt r n P) P i * r,
        pmt r n P - rawBal r (pmt r n P) P i * r,
        max (rawBal r (pmt r n P) P (i + 1)) 0⟩ := (Option.some_inj.mp ha).symm
    have hbe : b = ⟨pmt r n P, rawBal r (pmt r n P) P (i + 1) * r,
        pmt r n P - rawBal r (pmt r n P) P (i + 1) * r,
        max (rawBal r (pmt r n P) P (i + 2)) 0⟩ := (Option.some_inj.mp hb).symm
    rw [hae, hbe]
    set pay := pmt r n P with hpaydef
    constructor
    · show max (rawBal r pay P (i + 2)) 0 =
        max (max (rawBal r pay P (i + 1)) 0 -
             (pay - max (rawBal r pay P (i + 1)) 0 * r)) 0
      rcases le_or_lt 0 (rawBal r pay P (i + 1)) with hx | hx
      · rw [max_eq_left hx]
        have : rawBal r pay P (i + 2) =
            rawBal r pay P (i + 1) - (pay - rawBal r pay P (i + 1) * r) := by
          rw [rawBal]
        rw [this]
      · rw [max_eq_right hx.le]
        have hneg : rawBal r pay P (i + 2) < 0 := by
          have h1 : rawBal r pay P (i + 1) * (1 + r) < 0 :=
            mul_neg_of_neg_of_pos hx (by linarith)
          rw [rawBal_succ]
          linarith
        rw [max_eq_right hneg.le, max_eq_right (by linarith : 0 - (pay - 0 * r) ≤ 0)]
    · show max (rawBal r pay P (i + 2)) 0 ≤ max (rawBal r pay P (i + 1)) 0
      exact max_le_max ((rawBal_antitone r pay P hr hbp (i + 1)).1) (le_refl 0)

/-- Witness for C2 (amended): the floored recurrence and monotonicity
at periods 1 and 2 of the schedule for principal 100, rate 1,
amortization 1, horizon 2. -/
theorem schedule_balance_props_witness :
    (0 : ℚ) ≤ (⟨200, 0, 200, 0⟩ : PeriodRecord).balance ∧
    ((⟨200, 0, 200, 0⟩ : PeriodRecord).balance =
      max ((⟨200, 100, 100, 0⟩ : PeriodRecord).balance -
           ((⟨200, 100, 100, 0⟩ : PeriodRecord).payment -
            (⟨200, 100, 100, 0⟩ : PeriodRecord).balance * 1)) 0 ∧
     (⟨200, 0, 200, 0⟩ : PeriodRecord).balance ≤
       (⟨200, 100, 100, 0⟩ : PeriodRecord).balance) := by
  have h := schedule_balance_props 100 1 1 2 (by norm_num) (by norm_num)
    (by norm_num)
  exact ⟨h.1 1 ⟨200, 0, 200, 0⟩
           (by norm_num [amortization_schedule, amortAux, pmt]),
         h.2 0 ⟨200, 100, 100, 0⟩ ⟨200, 0, 200, 0⟩
           (by norm_num [amortization_schedule, amortAux, pmt])
           (by norm_num [amortization_schedule, amortAux, pmt])⟩

/-- C3 counterexample: for principal -100 (invalid per the claim) the
source returns a normal one-row schedule instead of failing, while
the validating build_schedule modelled from the spec rejects the same
input with InvalidInput. -/
theorem no_input_validation :
    amortization_schedule (-100) 1 1 1 = [⟨-200, -100, -100, 0⟩] ∧
    build_schedule_spec (-100) 1 1 1 = .error .invalidInput := by
  constructor
  · norm_num [amortization_schedule, amortAux, pmt]
  · norm_num [build_schedule_spec]

/-- C3 (amended): amortization_schedule performs no input validation:
for every input, including a negative principal or rate and a zero
amortization term, it returns a schedule of exactly horizon_periods
records rather than failing. -/
theorem schedule_always_returned (P r : ℚ) (n t : ℕ) :
    (amortization_schedule P r n t).length = t :=
  amortAux_length r (pmt r n P) P t

/-- C4: the projected NOI series has NOI[1] = noi_year1 exactly and
NOI[k] = noi_year1 * (1 + growth)^(k-1) for every k in 1..horizon. -/
theorem noi_growth_law (noi1 g : ℚ) (sched : List PeriodRecord) (k : ℕ)
    (h1 : 1 ≤ k) (h2 : k ≤ sched.length) :
    (noi_list noi1 g sched).get? (k - 1) = some (noi1 * (1 + g) ^ (k - 1)) ∧
    (noi_list noi1 g sched).get? 0 = some noi1 := by
  have hget : ∀ i : ℕ, i < sched.length →
      (noi_list noi1 g sched).get? i = some (noi1 * (1 + g) ^ i) := by
    intro i hi
    obtain ⟨si, hsi⟩ : ∃ si, sched.get? i = some si := by
      cases hcase : sched.get? i with
      | none =>
          rw [List.get?_eq_none] at hcase
          omega
      | some v => exact ⟨v, rfl⟩
    rw [noi_list, List.get?_map, projectAux_get? g sched noi1 i si hsi]
    rfl
  refine ⟨hget (k - 1) (by omega), ?_⟩
  have h0 := hget 0 (by omega)
  rw [h0, pow_zero, mul_one]

/-- Witness for C4: two years with 100% growth give NOI[2] = 200 from
NOI[1] = 100. -/
theorem noi_growth_law_witness :
    (noi_list 100 1 [⟨0, 0, 0, 0⟩, ⟨0, 0, 0, 0⟩]).get? 1 =
      some (100 * (1 + 1) ^ 1) ∧
    (noi_list 100 1 [⟨0, 0, 0, 0⟩, ⟨0, 0, 0, 0⟩]).get? 0 = some 100 :=
  noi_growth_law 100 1 [⟨0, 0, 0, 0⟩, ⟨0, 0, 0, 0⟩] 2 (by norm_num) (by simp)

/-- C5 counterexample: on a schedule whose only payment is 0 the
source still produces a full DSCR row by dividing (app.py line 90
computes noi / debt_service unguarded; with numpy floats that is a
silent infinity), while the projector modelled from the spec rejects
the same input with DivisionUndefined. -/
theorem dscr_no_signal_on_zero_debt_service :
    (dscr_list 100 0 [⟨0, 0, 0, 0⟩]).length = 1 ∧
    project_spec 0 100 [⟨0, 0, 0, 0⟩] = .error .divisionUndefined := by
  constructor
  · norm_num [dscr_list, projectAux]
  · norm_num [project_spec]

/-- C5 (amended): the DSCR series always has one entry per schedule
row, and whenever debt_service[k] is nonzero the entry is
DSCR[k] = NOI[k] / debt_service[k]; a zero debt service is not
signalled, the division is performed anyway. -/
theorem dscr_formula (noi1 g : ℚ) (sched : List PeriodRecord) :
    (dscr_list noi1 g sched).length = sched.length ∧
    ∀ k sk, sched.get? k = some sk → sk.payment ≠ 0 →
      (dscr_list noi1 g sched).get? k =
        some (noi1 * (1 + g) ^ k / sk.payment) := by
  constructor
  · rw [dscr_list, List.length_map, projectAux_length]
  · intro k sk h _hne
    rw [dscr_list, List.get?_map, projectAux_get? g sched noi1 k sk h]
    rfl

/-- Witness for C5 (amended): a single year with NOI 100 and debt
service 2 has DSCR 100 / 2. -/
theorem dscr_formula_witness :
    (dscr_list 100 0 [⟨2, 0, 0, 0⟩]).get? 0 =
      some (100 * (1 + 0) ^ 0 / (⟨2, 0, 0, 0⟩ : PeriodRecord).payment) :=
  (dscr_formula 100 0 [⟨2, 0, 0, 0⟩]).2 0 ⟨2, 0, 0, 0⟩ rfl (by norm_num)

lemma noi_list_getLastD (g : ℚ) (sched : List PeriodRecord) :
    ∀ (noi1 d : ℚ), sched ≠ [] →
      (noi_list noi1 g sched).getLastD d =
        noi1 * (1 + g) ^ (sched.length - 1) := by
  induction sched with
  | nil => intro noi1 d h; cases h rfl
  | cons s rest ih =>
      intro noi1 d _
      have hcons : noi_list noi1 g (s :: rest) =
          noi1 :: noi_list (noi1 * (1 + g)) g rest := by
        simp [noi_list, projectAux]
      rw [hcons, List.getLastD_cons]
      cases rest with
      | nil => simp [noi_list, projectAux]
      | cons s2 rest2 =>
          rw [ih (noi1 * (1 + g)) noi1 (by simp)]
          have hlen : (s :: s2 :: rest2 : List PeriodRecord).length - 1 =
              ((s2 :: rest2 : List PeriodRecord).length - 1) + 1 := by
            simp
          rw [hlen, pow_succ]
          ring

/-- C6 counterexample: with exit cap rate -1 (invalid per the claim)
the script still produces exit_value = final NOI / exit_cap = -100
instead of failing, while the summarizer modelled from the spec
rejects the same cap rate with InvalidInput. -/
theorem exit_value_no_validation :
    (runModel (fun _ => none) 100 100 0 0 (-1) 0 1 1).exit_value = -100 ∧
    summarize_spec 100 [] 100 (-1) 0 = .error .invalidInput := by
  constructor
  · norm_num [runModel, noi_list, projectAux, amortization_schedule,
      amortAux, pmt]
  · norm_num [summarize_spec]

/-- C6 (amended): the script performs no validation of the exit cap
rate or of the equity: for every exit cap rate (the claimed formula
part is stated here for cap > 0, as in the claim) the exit value is
the final NOI, noi_year_1 * (1 + rent_growth)^9, divided by the exit
cap rate. -/
theorem exit_value_formula (f : List ℚ → Option ℚ)
    (pp noi g eg cap ltv r : ℚ) (ay : ℕ) (hcap : 0 < cap) :
    (runModel f pp noi g eg cap ltv r ay).exit_value =
      noi * (1 + g) ^ 9 / cap := by
  show (noi_list noi g (amortization_schedule (pp * ltv) r ay 10)).getLastD 0
      / cap = noi * (1 + g) ^ 9 / cap
  have hne : amortization_schedule (pp * ltv) r ay 10 ≠ [] := by
    intro hcon
    have := amortAux_length r (pmt r ay (pp * ltv)) (pp * ltv) 10
    rw [amortization_schedule] at hcon
    rw [hcon] at this
    simp at this
  rw [noi_list_getLastD g _ noi 0 hne, amortization_schedule,
    amortAux_length r (pmt r ay (pp * ltv)) (pp * ltv) 10]

/-- Witness for C6 (amended) with cap rate 1 and no leverage. -/
theorem exit_value_formula_witness :
    (runModel (fun _ => none) 100 100 0 0 1 0 1 1).exit_value =
      100 * (1 + 0) ^ 9 / 1 :=
  exit_value_formula (fun _ => none) 100 100 0 0 1 0 1 1 (by norm_num)

/-- C7: the equity cash-flow vector has n + 1 entries for n yearly
cash flows: entry 0 is -equity, entries 1..n-1 are the corresponding
free cash flows unmodified, and entry n is the final free cash flow
plus net_sale_proceeds, where net_sale_proceeds = exit_value -
remaining_balance is taken as given (it is never clamped). -/
theorem cashflow_vector_shape (equity nsp ev rb : ℚ) (cf : List ℚ)
    (heq : 0 < equity) (hcf : cf ≠ []) (hnsp : nsp = ev - rb) :
    (build_cashflows equity cf nsp).length = cf.length + 1 ∧
    (build_cashflows equity cf nsp).get? 0 = some (-equity) ∧
    (∀ i, 1 ≤ i → i < cf.length →
      (build_cashflows equity cf nsp).get? i = cf.get? (i - 1)) ∧
    (build_cashflows equity cf nsp).get? cf.length =
      some (cf.getLastD 0 + nsp) := by
  have hpos : 0 < cf.length := List.length_pos.mpr hcf
  refine ⟨?_, rfl, ?_, ?_⟩
  · show ((-equity) :: (cf.dropLast ++ [cf.getLastD 0 + nsp])).length =
      cf.length + 1
    simp only [List.length_cons, List.length_append, List.length_dropLast,
      List.length_nil]
    omega
  · intro i hi1 hi2
    obtain ⟨j, rfl⟩ : ∃ j, i = j + 1 := ⟨i - 1, by omega⟩
    show (cf.dropLast ++ [cf.getLastD 0 + nsp]).get? j = cf.get? (j + 1 - 1)
    have hj : j < cf.dropLast.length := by
      rw [List.length_dropLast]; omega
    rw [List.get?_append hj]
    have := List.getElem?_dropLast cf j
    simp only [List.get?_eq_getElem?]
    rw [this, if_pos (by omega)]
    have hsub : j + 1 - 1 = j := rfl
    rw [hsub]
  · obtain ⟨m, hm⟩ : ∃ m, cf.length = m + 1 := ⟨cf.length - 1, by omega⟩
    have hdl : cf.dropLast.length = m := by
      rw [List.length_dropLast]; omega
    show ((-equity) :: (cf.dropLast ++ [cf.getLastD 0 + nsp])).get? cf.length =
      some (cf.getLastD 0 + nsp)
    rw [hm, List.get?_cons_succ, ← hdl, List.get?_concat_length]

/-- Witness for C7: two yearly cash flows and negative net sale
proceeds -5 = 0 - 5 (a loan balance above the exit value is
representable, not clamped); entry 0 of the vector is -100. -/
theorem cashflow_vector_shape_witness :
    (build_cashflows 100 [1, 2] (-5)).get? 0 = some (-100) ∧
    (build_cashflows 100 [1, 2] (-5)).get? 2 =
      some (([1, 2] : List ℚ).getLastD 0 + (-5)) :=
  ⟨(cashflow_vector_shape 100 (-5) 0 5 [1, 2] (by norm_num) (by simp)
      (by norm_num)).2.1,
   (cashflow_vector_shape 100 (-5) 0 5 [1, 2] (by norm_num) (by simp)
      (by norm_num)).2.2.2⟩

/-- C8: an IRR computation that yields no result is reported as the
explicit absent value none (the wrapper at app.py lines 9-13 swallows
every failure into None) and does not abort the summary: the equity
multiple, the exit value and the cash-flow vector are identical to
those of a run whose IRR computation is an arbitrary other function,
and the equity multiple is still the one computed at app.py line 106. -/
theorem irr_failure_does_not_abort (f f2 : List ℚ → Option ℚ)
    (pp noi g eg cap ltv r : ℚ) (ay : ℕ) (hf : ∀ l, f l = none) :
    (runModel f pp noi g eg cap ltv r ay).irr_val = none ∧
    (runModel f pp noi g eg cap ltv r ay).equity_multiple =
      (runModel f2 pp noi g eg cap ltv r ay).equity_multiple ∧
    (runModel f pp noi g eg cap ltv r ay).exit_value =
      (runModel f2 pp noi g eg cap ltv r ay).exit_value ∧
    (runModel f pp noi g eg cap ltv r ay).equity_multiple =
      equity_multiple (runModel f pp noi g eg cap ltv r ay).cashflows :=
  ⟨hf _, rfl, rfl, rfl⟩

/-- Witness for C8: a run whose IRR function always fails still
reports irr_val = none while the equity multiple agrees with a run
whose IRR function succeeds. -/
theorem irr_failure_does_not_abort_witness :
    (runModel (fun _ => none) 100 100 0 0 1 0 1 1).irr_val = none ∧
    (runModel (fun _ => none) 100 100 0 0 1 0 1 1).equity_multiple =
      (runModel (fun _ => some 0) 100 100 0 0 1 0 1 1).equity_multiple :=
  ⟨(irr_failure_does_not_abort (fun _ => none) (fun _ => some 0)
      100 100 0 0 1 0 1 (1 : ℕ) (fun _ => rfl)).1,
   (irr_failure_does_not_abort (fun _ => none) (fun _ => some 0)
      100 100 0 0 1 0 1 (1 : ℕ) (fun _ => rfl)).2.1⟩

/-- C9 counterexample: for the cash-flow vector [-100, -10, 120] the
source computes equity multiple (sum of ALL later cash flows) / 100 =
110 / 100, not the claimed (sum of positive inflows) / 100 =
120 / 100. -/
theorem equity_multiple_not_positive_inflows :
    equity_multiple [-100, -10, 120] = 11 / 10 ∧
    positive_inflows_multiple [-100, -10, 120] = 6 / 5 ∧
    equity_multiple [-100, -10, 120] ≠
      positive_inflows_multiple [-100, -10, 120] := by
  refine ⟨?_, ?_, ?_⟩ <;>
    norm_num [equity_multiple, positive_inflows_multiple]

/-- C9 (amended): the equity multiple of the constructed vector is the
sum of ALL cash flows at index >= 1 (negative years included, plus
the net sale proceeds) divided by the initial equity outflow. -/
theorem equity_multiple_sums_all (equity nsp : ℚ) (cf : List ℚ)
    (h : cf ≠ []) :
    equity_multiple (build_cashflows equity cf nsp) =
      (cf.sum + nsp) / equity := by
  have hsum : cf.dropLast.sum + cf.getLastD 0 = cf.sum := by
    conv_rhs => rw [← List.dropLast_append_getLast h]
    rw [List.sum_append, List.getLastD_eq_getLast?,
      List.getLast?_eq_getLast_of_ne_nil h]
    simp
  show (cf.dropLast ++ [cf.getLastD 0 + nsp]).sum / (-(-equity)) = _
  rw [List.sum_append, neg_neg]
  have hx : ([cf.getLastD 0 + nsp] : List ℚ).sum = cf.getLastD 0 + nsp := by
    simp
  rw [hx]
  rw [← hsum]
  ring_nf

/-- Witness for C9 (amended): equity 100, yearly cash flows -10 and
120, no sale proceeds: the equity multiple is (-10 + 120 + 0) / 100. -/
theorem equity_multiple_sums_all_witness :
    equity_multiple (build_cashflows 100 [-10, 120] 0) =
      (([-10, 120] : List ℚ).sum + 0) / 100 :=
  equity_multiple_sums_all 100 0 [-10, 120] (by simp)

/-- C10: expense_growth is read at app.py line 50 and never used: two
runs that differ only in expense_growth produce identical outputs
(schedule, NOI series, cash flows, DSCRs, exit value, remaining
balance, net sale proceeds, cash-flow vector, IRR and equity
multiple). -/
theorem expense_growth_has_no_effect (f : List ℚ → Option ℚ)
    (pp noi g eg1 eg2 cap ltv r : ℚ) (ay : ℕ) :
    runModel f pp noi g eg1 cap ltv r ay =
      runModel f pp noi g eg2 cap ltv r ay := rfl
